import Mathlib

/-!
# Verification of the jut-su scraper parsing core

A shallow embedding of `jutsu_scraper` (parser.py, utils.py, video_extractor.py
and the pydantic models) in Lean 4, together with proofs of the behavioural
properties of the parsing pipeline.

Conventions of the embedding:
* Python strings are Lean `String`s; the character-level helpers below
  reimplement the exact Python / `re` semantics used by the source
  (`str.lower`, `str.strip`, `str.isdigit`, substring containment, and the
  handful of concrete regular expressions, each compiled by hand into a
  deterministic matcher — every regex used by the source is free of genuine
  backtracking because its character classes are pairwise disjoint).
* `str.lower` is modelled for the ASCII and Russian-Cyrillic letters, the two
  alphabets the source's patterns mention.
* BeautifulSoup documents are modelled as flat lists of sibling nodes
  (`h2.the-anime-season` headings and `<a>` episode links), which is the shape
  of the region the parser traverses; `find_next`, `find_next_sibling`,
  `find_all_next(limit=…)` and `find_all_previous(…, limit=…)` become
  positional scans over that list.  BeautifulSoup tag equality (used by the
  source through `in`, `.index` and `!=`) is structural, hence plain
  `DecidableEq` on the node values.
* Python `dict`s are association lists with unique keys; insertion replaces
  the value of an existing key in place and otherwise appends.
* pydantic models with raising validators become `Option`-returning
  constructors (`none` = `ValidationError`); a `ValidationError` that the
  source catches maps to handling the `none`, an uncaught one propagates as
  `none` of the surrounding computation.
* Floats in `Rating` carry only ordered comparisons in the source, so they are
  modelled as `ℚ`.
-/

namespace Jutsu

/-! ## Python string primitives -/

/-- Python `\d` (ASCII digits, the only digits the scraped pages contain). -/
def isDigitChar (c : Char) : Bool := '0' ≤ c && c ≤ '9'

/-- Python `\s` / `str.strip` whitespace (ASCII whitespace set). -/
def isSpaceChar (c : Char) : Bool :=
  c = ' ' || c = '\t' || c = '\n' || c = '\r' || c = '\x0b' || c = '\x0c'

/-- Python `str.lower` on the alphabets used by the source's patterns:
ASCII letters and Russian Cyrillic (`А..Я` and `Ё`). -/
def pyLowerChar (c : Char) : Char :=
  if 'A' ≤ c && c ≤ 'Z' then Char.ofNat (c.toNat + 32)
  else if c.toNat = 0x401 then Char.ofNat 0x451
  else if 0x410 ≤ c.toNat && c.toNat ≤ 0x42F then Char.ofNat (c.toNat + 0x20)
  else c

def pyLower (s : String) : String := ⟨s.data.map pyLowerChar⟩

/-- Python `pat in s` (substring containment). -/
def listContainsSub (cs pat : List Char) : Bool :=
  cs.tails.any (fun t => pat.isPrefixOf t)

def strContains (s pat : String) : Bool := listContainsSub s.data pat.data

/-- Python `str.strip()`. -/
def pyStrip (cs : List Char) : List Char :=
  ((cs.dropWhile isSpaceChar).reverse.dropWhile isSpaceChar).reverse

def pyStripStr (s : String) : String := ⟨pyStrip s.data⟩

/-- Python `str.isdigit()` (nonempty and all digits). -/
def pyIsDigit (s : String) : Bool := !s.data.isEmpty && s.data.all isDigitChar

/-- Numeric value of a digit-character run (Python `int` on a digit string). -/
def digitsVal (ds : List Char) : Nat := ds.foldl (fun n c => 10 * n + (c.toNat - 48)) 0

/-- Consume a literal at the head of a character list. -/
def dropLit (lit : String) (cs : List Char) : Option (List Char) :=
  if lit.data.isPrefixOf cs then some (cs.drop lit.data.length) else none

/-- `re.search` driver: try an anchored matcher at every start position, left
to right (leftmost match wins, exactly as in `re`). -/
def searchFirst {α : Type} (f : List Char → Option α) : List Char → Option α
  | [] => f []
  | c :: cs =>
    match f (c :: cs) with
    | some v => some v
    | none => searchFirst f cs

/-- Scanner for `re.findall(r'\d+', text)`: `run` is the digit run currently
being read (in reverse). -/
def digitRunsGo (run : List Char) : List Char → List Nat
  | [] => if run.isEmpty then [] else [digitsVal run.reverse]
  | c :: cs =>
    if isDigitChar c then digitRunsGo (c :: run) cs
    else if run.isEmpty then digitRunsGo [] cs
    else digitsVal run.reverse :: digitRunsGo [] cs

/-- Python `re.findall(r'\d+', text)` as numeric values: the maximal digit
runs of the text, in order. -/
def digitRuns (cs : List Char) : List Nat := digitRunsGo [] cs

/-! ## Python `list.sort`

`list.sort(key=...)` is a stable sort; the output of a stable sort under a
total preorder is unique, so the structural insertion sort below produces
exactly the list Python produces. -/

def pyInsert {α : Type} (le : α → α → Bool) (a : α) : List α → List α
  | [] => [a]
  | b :: l => if le a b then a :: b :: l else b :: pyInsert le a l

def pySort {α : Type} (le : α → α → Bool) : List α → List α
  | [] => []
  | a :: l => pyInsert le a (pySort le l)

/-! ## utils.py: year extraction -/

def MIN_YEAR : Nat := 1900
def MAX_YEAR : Nat := 2100

/-- Anchored matcher for `(\d{4})`: four consecutive digit characters. -/
def matchYearAt (cs : List Char) : Option Nat :=
  match cs with
  | a :: b :: c :: d :: _ =>
    if isDigitChar a && isDigitChar b && isDigitChar c && isDigitChar d then
      some (digitsVal [a, b, c, d])
    else none
  | _ => none

/-- `utils.extract_year_from_text`: the first 4-digit window of the text, kept
only when it lies in `[MIN_YEAR, MAX_YEAR]`. -/
def extract_year_from_text (text : String) : Option Nat :=
  match searchFirst matchYearAt text.data with
  | some year => if MIN_YEAR ≤ year && year ≤ MAX_YEAR then some year else none
  | none => none

/-- Whether the text has any 4-consecutive-digit window whose value lies in
`[MIN_YEAR, MAX_YEAR]` (the spec's "4-digit run in the range"). -/
def hasYearWindowInRange (text : String) : Bool :=
  text.data.tails.any fun t =>
    match matchYearAt t with
    | some y => MIN_YEAR ≤ y && y ≤ MAX_YEAR
    | none => false

/-- The deduplicating year-collection loop of `AnimeParser._parse_years`, over
the texts of the info-block links; `fallbackYears` abstracts the raw-markup
fallback `_parse_years_fallback` (used only when no link text yields a year). -/
def parse_years (texts : List String) (fallbackYears : List Nat) : List Nat × Option Nat :=
  let years := texts.foldl
    (fun years text =>
      match extract_year_from_text text with
      | some y => if years.contains y then years else years ++ [y]
      | none => years)
    []
  let years := if years.isEmpty then fallbackYears else years
  if years.isEmpty then (years, none)
  else
    let sorted := pySort (fun a b => a ≤ b) years
    (sorted, sorted.head?)

/-! ## utils.py: season-number extraction -/

def MIN_SEASON_NUMBER : Nat := 1
def MAX_SEASON_NUMBER : Nat := 20

def seasonInRange (n : Nat) : Bool := MIN_SEASON_NUMBER ≤ n && n ≤ MAX_SEASON_NUMBER

/-- Anchored matcher for `(\d+)\s+сезон`. -/
def matchNumSeasonAt (cs : List Char) : Option Nat :=
  let ds := cs.takeWhile isDigitChar
  if ds.isEmpty then none
  else
    let rest := cs.drop ds.length
    let sp := rest.takeWhile isSpaceChar
    if sp.isEmpty then none
    else if (dropLit "сезон" (rest.drop sp.length)).isSome then some (digitsVal ds) else none

/-- Anchored matcher for `\((\d+)\s+сезон\)`. -/
def matchParenNumSeasonAt (cs : List Char) : Option Nat :=
  match cs with
  | '(' :: rest =>
    let ds := rest.takeWhile isDigitChar
    if ds.isEmpty then none
    else
      let r2 := rest.drop ds.length
      let sp := r2.takeWhile isSpaceChar
      if sp.isEmpty then none
      else
        match dropLit "сезон" (r2.drop sp.length) with
        | some (')' :: _) => some (digitsVal ds)
        | _ => none
  | _ => none

/-- Anchored matcher for `\((\d+)`. -/
def matchParenNumAt (cs : List Char) : Option Nat :=
  match cs with
  | '(' :: rest =>
    let ds := rest.takeWhile isDigitChar
    if ds.isEmpty then none else some (digitsVal ds)
  | _ => none

/-- `^(\d+)`: leading digits of the whole text. -/
def matchLeadingNum (cs : List Char) : Option Nat :=
  let ds := cs.takeWhile isDigitChar
  if ds.isEmpty then none else some (digitsVal ds)

/-- One step of the pattern loop of `utils.extract_season_number`: a match is
accepted only when its number lies in `[1, 20]`, otherwise the pattern is
abandoned (`continue`). -/
def tryPat (r : Option Nat) : Option Nat :=
  r.bind fun n => if seasonInRange n then some n else none

/-- `utils.extract_season_number`: the four ordered patterns, then the
digit-run fallback scan. -/
def extract_season_number (text : String) : Option Nat :=
  match tryPat (searchFirst matchNumSeasonAt text.data) with
  | some n => some n
  | none =>
  match tryPat (searchFirst matchParenNumSeasonAt text.data) with
  | some n => some n
  | none =>
  match tryPat (searchFirst matchParenNumAt text.data) with
  | some n => some n
  | none =>
  match tryPat (matchLeadingNum text.data) with
  | some n => some n
  | none => (digitRuns text.data).find? seasonInRange

/-! ## models/rating.py -/

/-- `Rating` (floats modelled as `ℚ`: the source only compares them). -/
structure Rating where
  value : ℚ
  best : ℚ
  worst : ℚ
  count : ℤ
deriving DecidableEq, Repr

/-- pydantic construction of `Rating`: the `count ≥ 0` field constraint, then
the `validate_bounds` model validator (`worst ≤ value ≤ best`); a `none`
models the raised `ValidationError`. -/
def Rating.construct (value best worst : ℚ) (count : ℤ) : Option Rating :=
  if 0 ≤ count then
    if worst ≤ value ∧ value ≤ best then some ⟨value, best, worst, count⟩ else none
  else none

/-! ## pydantic `model_config` declarations of the five entity models -/

structure ModelConfig where
  frozen : Bool
  validate_assignment : Bool
  arbitrary_types_allowed : Option Bool := none
deriving DecidableEq, Repr

def Anime.model_config : ModelConfig :=
  { frozen := false, validate_assignment := true, arbitrary_types_allowed := some false }

def Episode.model_config : ModelConfig := { frozen := false, validate_assignment := true }

def Season.model_config : ModelConfig := { frozen := false, validate_assignment := true }

def Arc.model_config : ModelConfig := { frozen := false, validate_assignment := true }

def Rating.model_config : ModelConfig := { frozen := false, validate_assignment := true }

/-! ## utils.py: part-header detection and URL normalisation -/

/-- Anchored matcher for one alternative `lit\s*\d+` of `REGEX_PART_HEADER`. -/
def litThenDigits (lit : String) (cs : List Char) : Bool :=
  match dropLit lit cs with
  | some rest =>
    match rest.dropWhile isSpaceChar with
    | c :: _ => isDigitChar c
    | [] => false
  | none => false

/-- `re.search(r"часть\s*\d+|part\s*\d+", s)` truthiness (on the lowercased
combined text, as the source applies it). -/
def searchPartPattern (s : String) : Bool :=
  s.data.tails.any fun t => litThenDigits "часть" t || litThenDigits "part" t

/-- `utils.is_part_header`. -/
def is_part_header (header_text : String) (header_title : String) : Bool :=
  let combined := pyLower (header_text ++ " " ++ header_title)
  if searchPartPattern combined then true
  else if strContains combined "часть" then true
  else if header_title ≠ "" && strContains (pyLower header_title) "part"
      && !strContains (pyLower header_title) "season" then true
  else false

def BASE_URL : String := "https://jut.su"

/-- `utils.normalize_url`. -/
def normalize_url (url : String) (base_url : String := BASE_URL) : String :=
  if url.data.headD ' ' = '/' then base_url ++ url
  else if "http".data.isPrefixOf url.data then url
  else base_url ++ "/" ++ url

/-! ## The DOM model

The parser walks one flat region of the page: `h2.the-anime-season` headings
and `<a href=".../episode-N.html">` links.  A `Header` carries the attributes
the source reads (`class` list, `get_text(strip=True)` text, `title`
attribute); a `Link` carries its `href` and the two title-extraction views
used by `AnimeParser._extract_episode_title` (the raw string node following
the first `<i>` tag when both exist, and the stripped link text with `<i>`
tags removed). -/

structure Header where
  classes : List String
  text : String
  titleAttr : String
deriving DecidableEq, Repr

structure Link where
  href : String
  iNextSib : Option String
  textNoI : String
deriving DecidableEq, Repr

inductive Node where
  | head : Header → Node
  | link : Link → Node
deriving DecidableEq, Repr

abbrev Doc := List Node

/-- Anchored matcher for `REGEX_EPISODE_URL = /episode-(\d+)\.html`. -/
def matchEpisodeAt (cs : List Char) : Option Nat :=
  match dropLit "/episode-" cs with
  | none => none
  | some rest =>
    let ds := rest.takeWhile isDigitChar
    if ds.isEmpty then none
    else if (dropLit ".html" (rest.drop ds.length)).isSome then some (digitsVal ds)
    else none

/-- Anchored matcher for `REGEX_SEASON_URL = /season-(\d+)/`. -/
def matchSeasonAt (cs : List Char) : Option Nat :=
  match dropLit "/season-" cs with
  | none => none
  | some rest =>
    let ds := rest.takeWhile isDigitChar
    if ds.isEmpty then none
    else if (rest.drop ds.length).headD ' ' = '/' then some (digitsVal ds)
    else none

/-- The `href=re.compile(REGEX_EPISODE_URL)` filter of `find_all` /
`find_next`. -/
def hrefMatchesEpisode (href : String) : Bool :=
  (searchFirst matchEpisodeAt href.data).isSome

def seasonHeaderFilter (n : Node) : Option Header :=
  match n with
  | .head h => if h.classes.contains "the-anime-season" then some h else none
  | .link _ => none

def episodeLinkFilter (n : Node) : Option Link :=
  match n with
  | .link l => if hrefMatchesEpisode l.href then some l else none
  | .head _ => none

/-- `soup.select(SELECTOR_SEASON_HEADERS)`, tagged with document positions. -/
def seasonHeaderNodes (doc : Doc) : List (Nat × Header) :=
  doc.enum.filterMap fun p => (seasonHeaderFilter p.2).map fun h => (p.1, h)

/-- `watch_l_div.find_all('a', href=re.compile(REGEX_EPISODE_URL))`, tagged
with document positions. -/
def episodeLinkNodes (doc : Doc) : List (Nat × Link) :=
  doc.enum.filterMap fun p => (episodeLinkFilter p.2).map fun l => (p.1, l)

/-- `node.find_next('a', href=re.compile(REGEX_EPISODE_URL))` from position
`i`. -/
def findNextLink (doc : Doc) (i : Nat) : Option Link :=
  (doc.drop (i + 1)).findSome? episodeLinkFilter

/-- `node.find_next_sibling('h2', class_='the-anime-season')` from position
`i` (the region is a flat sibling list). -/
def findNextSeasonHeader (doc : Doc) (i : Nat) : Option Header :=
  (doc.drop (i + 1)).findSome? seasonHeaderFilter

/-- `node.find_next_siblings('h2', class_='the-anime-season')`. -/
def nextSeasonHeaders (doc : Doc) (i : Nat) : List Header :=
  (doc.drop (i + 1)).filterMap seasonHeaderFilter

/-- `node.find_all_next(limit=100)`. -/
def next100 (doc : Doc) (i : Nat) : List Node :=
  (doc.drop (i + 1)).take 100

/-- `link.find_all_previous('h2', class_='the-anime-season', limit=50)`
(nearest first). -/
def prevSeasonHeaders (doc : Doc) (i : Nat) : List Header :=
  (((doc.take i).filterMap seasonHeaderFilter).reverse).take 50

/-! ## parser.py: header classification -/

/-- The `ep_before_next_header` loop of `AnimeParser._classify_headers`. -/
def epBeforeNextHeader (all_between : List Header) (next_header : Header) : Bool :=
  match all_between with
  | [] => true
  | bh :: rest =>
    if bh = next_header then true
    else if bh.classes.contains "need_bold_season" then false
    else epBeforeNextHeader rest next_header

/-- The positional season heuristic of `_classify_headers` (the branch taken
when the header is not a part header and carries no `need_bold_season`
class). -/
def classifyPositional (doc : Doc) (i : Nat) (h : Header) : Bool :=
  if (digitRuns h.text.data).isEmpty then false
  else
    match findNextLink doc i with
    | none => false
    | some next_ep =>
      match findNextSeasonHeader doc i with
      | some next_header =>
        if (next100 doc i).contains (Node.link next_ep) then
          epBeforeNextHeader (nextSeasonHeaders doc i) next_header
        else false
      | none => true

/-- Season test for one header that is not a part header. -/
def classifySeason (doc : Doc) (i : Nat) (h : Header) : Bool :=
  if h.classes.contains "need_bold_season" then true
  else classifyPositional doc i h

/-- `AnimeParser._classify_headers`: partition the selected headers, in
document order, into season headers and arc candidates. -/
def classifyHeaders (doc : Doc) : List (Nat × Header) × List (Nat × Header) :=
  go (seasonHeaderNodes doc)
where
  go : List (Nat × Header) → List (Nat × Header) × List (Nat × Header)
    | [] => ([], [])
    | (i, h) :: rest =>
      let r := go rest
      if is_part_header h.text h.titleAttr then (r.1, (i, h) :: r.2)
      else if classifySeason doc i h then ((i, h) :: r.1, r.2)
      else (r.1, (i, h) :: r.2)

/-! ## pydantic entity models (episode / arc / season) -/

structure Episode where
  number : Nat
  title : String
  url : String
  season_number : Option Nat
deriving DecidableEq, Repr

/-- pydantic construction of `Episode`: `number` must be positive, `title`
and `url` must have length ≥ 1, the `validate_url` field validator strips the
URL and rejects whitespace-only URLs (the stored URL is the stripped one),
and `season_number`, when present, must be positive. -/
def Episode.construct (number : Nat) (title url : String) (season_number : Option Nat) :
    Option Episode :=
  if number = 0 then none
  else if title.data.isEmpty then none
  else if url.data.isEmpty then none
  else if (pyStrip url.data).isEmpty then none
  else
    match season_number with
    | some s => if s = 0 then none else some ⟨number, title, pyStripStr url, some s⟩
    | none => some ⟨number, title, pyStripStr url, none⟩

structure Arc where
  name : String
  episodes : List Episode
  title : Option String
deriving DecidableEq, Repr

/-- pydantic construction of `Arc`: `name` must have length ≥ 1. -/
def Arc.construct (name : String) (title : Option String) (episodes : List Episode) :
    Option Arc :=
  if name.data.isEmpty then none else some ⟨name, episodes, title⟩

structure Season where
  number : Nat
  episodes : List Episode
  arcs : List Arc
  title : Option String
deriving DecidableEq, Repr

/-- pydantic construction of `Season`: `number` must be positive. -/
def Season.construct (number : Nat) (episodes : List Episode) (arcs : List Arc)
    (title : Option String) : Option Season :=
  if number = 0 then none else some ⟨number, episodes, arcs, title⟩

/-! ## Python dictionaries as association lists (unique keys) -/

/-- `d[k] = v`: replace in place when the key exists, else append. -/
def alInsert {κ β : Type} [DecidableEq κ] : List (κ × β) → κ → β → List (κ × β)
  | [], k, v => [(k, v)]
  | p :: rest, k, v => if p.1 = k then (p.1, v) :: rest else p :: alInsert rest k v

/-- `d.get(k)` / `d[k]`. -/
def alLookup {κ β : Type} [DecidableEq κ] : List (κ × β) → κ → Option β
  | [], _ => none
  | p :: rest, k => if p.1 = k then some p.2 else alLookup rest k

/-- `k in d`. -/
def alContains {κ β : Type} [DecidableEq κ] (d : List (κ × β)) (k : κ) : Bool :=
  (alLookup d k).isSome

/-! ## parser.py: season / arc bookkeeping -/

/-- One value of the `seasons_info` dictionary of `_build_seasons_info`. -/
structure SeasonInfo where
  title : Option String
  header : Header
deriving DecidableEq, Repr

/-- One value of the `seasons_dict` dictionary. -/
structure SeasonData where
  episodes : List Episode
  arcs : List (String × Arc)
deriving DecidableEq, Repr

abbrev SDict := List (Nat × SeasonData)

/-- Lazy-group matcher for `REGEX_SEASON_TITLE = ^(.+?)\s*\((\d+)\s+сезон\)`:
the shortest non-empty newline-free prefix followed (after spaces) by the
parenthesised season phrase. -/
def seasonTitleMatch (s : String) : Option String :=
  go [] s.data
where
  go (acc : List Char) : List Char → Option String
    | [] => none
    | c :: rest =>
      if c = '\n' then none
      else if (matchParenNumSeasonAt (rest.dropWhile isSpaceChar)).isSome then
        some ⟨(c :: acc).reverse⟩
      else go (c :: acc) rest

/-- `re.match(REGEX_PLAIN_SEASON, s)` with `REGEX_PLAIN_SEASON =
^\d+\s+сезон\s*$`. -/
def plainSeasonMatch (s : String) : Bool :=
  let cs := s.data
  let ds := cs.takeWhile isDigitChar
  if ds.isEmpty then false
  else
    let rest := cs.drop ds.length
    let sp := rest.takeWhile isSpaceChar
    if sp.isEmpty then false
    else
      match dropLit "сезон" (rest.drop sp.length) with
      | some tail => tail.all isSpaceChar
      | none => false

/-- Lazy-group matcher for `REGEX_TITLE_BEFORE_NUMBER = ^(.+?)\s+\d+`. -/
def titleBeforeNumberMatch (s : String) : Option String :=
  go [] s.data
where
  go (acc : List Char) : List Char → Option String
    | [] => none
    | c :: rest =>
      if c = '\n' then none
      else
        let sp := rest.takeWhile isSpaceChar
        if !sp.isEmpty && isDigitChar ((rest.drop sp.length).headD 'x') then
          some ⟨(c :: acc).reverse⟩
        else go (c :: acc) rest

/-- The season display-title derivation inside `_build_seasons_info`. -/
def seasonTitleClean (season_text season_title : String) : Option String :=
  if season_title ≠ "" then some season_title
  else
    match seasonTitleMatch season_text with
    | some t => some (pyStripStr t)
    | none =>
      if plainSeasonMatch season_text then none
      else
        match titleBeforeNumberMatch season_text with
        | some t =>
          let potential := pyStripStr t
          if pyIsDigit potential then none else some potential
        | none => none

/-- `AnimeParser._build_seasons_info`. -/
def build_seasons_info (season_headers : List (Nat × Header)) :
    SDict × List (Nat × SeasonInfo) :=
  season_headers.foldl
    (fun st p =>
      match extract_season_number p.2.text with
      | none => st
      | some season_num =>
        (alInsert st.1 season_num ⟨[], []⟩,
         alInsert st.2 season_num ⟨seasonTitleClean p.2.text p.2.titleAttr, p.2⟩))
    ([], [])

/-- One entry of the `arcs_info` list of `_build_arcs_info`. -/
structure ArcInfo where
  header : Header
  name : String
  title : Option String
  season : Nat
deriving DecidableEq, Repr

/-- `AnimeParser._build_arcs_info`. -/
def build_arcs_info (doc : Doc) (arc_headers : List (Nat × Header)) (sd : SDict) :
    List ArcInfo :=
  arc_headers.foldl
    (fun acc p =>
      match findNextLink doc p.1 with
      | none => acc
      | some next_ep =>
        match searchFirst matchSeasonAt next_ep.href.data with
        | none => acc
        | some season_num =>
          if alContains sd season_num then
            acc ++ [⟨p.2, p.2.text,
                     (if p.2.titleAttr ≠ "" then some p.2.titleAttr else none), season_num⟩]
          else acc)
    []

/-! ## parser.py: episode-link parsing -/

/-- `AnimeParser._extract_episode_title`. -/
def extractEpisodeTitle (l : Link) : String :=
  match l.iNextSib with
  | some s => pyStripStr s
  | none => l.textNoI

/-- The season-resolution block of `_parse_episode_link`: `none` is the
early `return None`, `some sn` continues with season number `sn` (the
`seasons_dict` argument enters only through its key set). -/
def resolveSeason (url_season : Option Nat) (seasonKeys : List Nat) : Option (Option Nat) :=
  if seasonKeys.isEmpty then some url_season
  else
    match url_season with
    | none =>
      match seasonKeys with
      | [k] => some (some k)
      | _ => none
    | some sn => if seasonKeys.contains sn then some (some sn) else none

/-- `AnimeParser._parse_episode_link`. -/
def parse_episode_link (l : Link) (seasonKeys : List Nat) : Option Episode :=
  match searchFirst matchEpisodeAt l.href.data with
  | none => none
  | some ep_num =>
    match resolveSeason (searchFirst matchSeasonAt l.href.data) seasonKeys with
    | none => none
    | some sn => Episode.construct ep_num (extractEpisodeTitle l) (normalize_url l.href) sn

/-! ## parser.py: arc assignment and the episode loop -/

/-- Python `list.index` (first structurally equal element). -/
def listIndexOf {α : Type} [DecidableEq α] (a : α) : List α → Nat
  | [] => 0
  | b :: rest => if b = a then 0 else 1 + listIndexOf a rest

/-- The `found_between` inner loop of `_assign_episode_to_arc`. -/
def foundBetween (season_arcs : List ArcInfo) (ai : ArcInfo) (prev : List Header)
    (arc_pos : Nat) : Bool :=
  season_arcs.any fun other =>
    other ≠ ai && prev.contains other.header && listIndexOf other.header prev < arc_pos

/-- The `for arc_info in reversed(season_arcs)` search of
`_assign_episode_to_arc`. -/
def findCurrentArc (season_arcs : List ArcInfo) (prev : List Header) : Option ArcInfo :=
  go season_arcs.reverse
where
  go : List ArcInfo → Option ArcInfo
    | [] => none
    | ai :: rest =>
      if prev.contains ai.header then
        if foundBetween season_arcs ai prev (listIndexOf ai.header prev) then go rest
        else some ai
      else go rest

/-- `seasons_dict[season_num]['arcs'][arc_name].episodes.append(episode)`:
append to the (unique) entry of the given name. -/
def appendToArc (arcs : List (String × Arc)) (name : String) (e : Episode) :
    List (String × Arc) :=
  match arcs with
  | [] => []
  | (n, a) :: rest =>
    if n = name then (n, { a with episodes := a.episodes ++ [e] }) :: rest
    else (n, a) :: appendToArc rest name e

/-- In-place mutation of one `seasons_dict` entry (keys are unique, so
mapping over all entries of the key is the Python update). -/
def sdUpdate (sd : SDict) (k : Nat) (f : SeasonData → SeasonData) : SDict :=
  sd.map fun p => if p.1 = k then (p.1, f p.2) else p

/-- `AnimeParser._assign_episode_to_arc` for the episode parsed from the link
at document position `i`.  A `none` is the uncaught `ValidationError` of
`Arc(...)` (or the unreachable `KeyError`). -/
def assign_episode_to_arc (e : Episode) (i : Nat) (arcs_info : List ArcInfo)
    (sd : SDict) (season_num : Nat) (doc : Doc) : Option SDict :=
  let season_arcs := arcs_info.filter fun ai => ai.season == season_num
  if season_arcs.isEmpty then some sd
  else
    let prev := prevSeasonHeaders doc i
    match findCurrentArc season_arcs prev with
    | none => some sd
    | some ai =>
      match alLookup sd season_num with
      | none => none
      | some s =>
        if s.arcs.any fun p => p.1 == ai.name then
          some (sdUpdate sd season_num fun s' => { s' with arcs := appendToArc s'.arcs ai.name e })
        else
          match Arc.construct ai.name ai.title [] with
          | none => none
          | some arc =>
            some (sdUpdate sd season_num fun s' =>
              { s' with arcs := s'.arcs ++ [(ai.name, { arc with episodes := arc.episodes ++ [e] })] })

/-- One iteration of the `for link in all_episode_links` loop of
`_parse_with_seasons`. -/
def processLink (doc : Doc) (arcs_info : List ArcInfo)
    (st : List Episode × SDict) (il : Nat × Link) : Option (List Episode × SDict) :=
  match parse_episode_link il.2 (st.2.map Prod.fst) with
  | none => some st
  | some e =>
    let episodes := st.1 ++ [e]
    match e.season_number with
    | none => some (episodes, st.2)
    | some sn =>
      if alContains st.2 sn then
        let sd := sdUpdate st.2 sn fun s => { s with episodes := s.episodes ++ [e] }
        match assign_episode_to_arc e il.1 arcs_info sd sn doc with
        | none => none
        | some sd2 => some (episodes, sd2)
      else some (episodes, st.2)

/-- The `for season_num in sorted(seasons_dict.keys())` body of
`_parse_with_seasons`: per-season episode sort, arc episode sorts, `Season`
construction. -/
def buildSeason (sd : SDict) (info : List (Nat × SeasonInfo)) (k : Nat) : Option Season :=
  match alLookup sd k, alLookup info k with
  | some s, some si =>
    let eps := pySort (fun a b => a.number ≤ b.number) s.episodes
    let arcsList := (s.arcs.map Prod.snd).map fun a =>
      { a with episodes := pySort (fun x y => x.number ≤ y.number) a.episodes }
    Season.construct k eps arcsList si.title
  | _, _ => none

/-- `arc_headers = [h for h in arc_headers_candidates if h not in
season_headers]` (BeautifulSoup tag equality is structural, so the membership
test compares header values). -/
def arcHeadersOf (season_headers arc_headers_candidates : List (Nat × Header)) :
    List (Nat × Header) :=
  arc_headers_candidates.filter fun p => !(season_headers.any fun q => q.2 == p.2)

/-- The `for link in all_episode_links` loop of `_parse_with_seasons`. -/
def linksFold (doc : Doc) (season_headers arc_headers_candidates : List (Nat × Header)) :
    Option (List Episode × SDict) :=
  (episodeLinkNodes doc).foldlM
    (processLink doc
      (build_arcs_info doc (arcHeadersOf season_headers arc_headers_candidates)
        (build_seasons_info season_headers).1))
    ([], (build_seasons_info season_headers).1)

/-- The `for season_num in sorted(seasons_dict.keys())` loop of
`_parse_with_seasons`. -/
def seasonsFold (sd : SDict) (info : List (Nat × SeasonInfo)) : Option (List Season) :=
  (pySort (fun a b => a ≤ b) (sd.map Prod.fst)).foldlM
    (fun acc k => (buildSeason sd info k).map fun s => acc ++ [s]) ([] : List Season)

/-- `AnimeParser._parse_with_seasons`. -/
def parse_with_seasons (doc : Doc)
    (season_headers arc_headers_candidates : List (Nat × Header)) :
    Option (List Episode × List Season) :=
  match linksFold doc season_headers arc_headers_candidates with
  | none => none
  | some st =>
    match seasonsFold st.2 (build_seasons_info season_headers).2 with
    | none => none
    | some seasons => some (st.1, seasons)

/-- `AnimeParser._parse_without_seasons` (when the watch container is absent
the source scans the whole soup, which the model identifies with the node
list). -/
def parse_without_seasons (doc : Doc) : List Episode :=
  (episodeLinkNodes doc).foldl
    (fun acc p =>
      match parse_episode_link p.2 [] with
      | some e => acc ++ [e]
      | none => acc)
    []

/-- A parsed page region: the flat node list and whether the `div.watch_l`
container is present. -/
structure AnimePage where
  doc : Doc
  hasWatch : Bool
deriving DecidableEq, Repr

/-- The flat-list sort key `(x.season_number or 0, x.number)`. -/
def epKey (e : Episode) : Nat × Nat := (e.season_number.getD 0, e.number)

/-- Python tuple ordering on the sort keys. -/
def pairLe (p q : Nat × Nat) : Bool := p.1 < q.1 || (p.1 = q.1 && p.2 ≤ q.2)

def epLe (a b : Episode) : Bool := pairLe (epKey a) (epKey b)

/-- The branch selection of `_parse_episodes_and_seasons` (before the final
sorts): season parsing when real season headers exist and the watch container
is present, flat parsing otherwise. -/
def parse_stage1 (page : AnimePage) : Option (List Episode × List Season) :=
  let ch := classifyHeaders page.doc
  let has_real_seasons := !ch.1.isEmpty
  if has_real_seasons && page.hasWatch then
    parse_with_seasons page.doc ch.1 ch.2
  else some (parse_without_seasons page.doc, [])

/-- `AnimeParser._parse_episodes_and_seasons`: classification, season or flat
parsing, final flat sort and season sort.  `none` models an uncaught
`ValidationError` escaping `parse()`. -/
def parse_episodes_and_seasons (page : AnimePage) : Option (List Episode × List Season) :=
  match parse_stage1 page with
  | none => none
  | some r =>
    some (pySort epLe r.1,
      if r.2.isEmpty then r.2 else pySort (fun a b => a.number ≤ b.number) r.2)

/-! ## video_extractor.py -/

/-- Character-level engine of `str.replace('&amp;', '&')` (leftmost,
non-overlapping). -/
def replaceAmpChars : List Char → List Char
  | '&' :: 'a' :: 'm' :: 'p' :: ';' :: rest => '&' :: replaceAmpChars rest
  | c :: cs => c :: replaceAmpChars cs
  | [] => []

/-- `src.replace('&amp;', '&')`. -/
def replaceAmp (s : String) : String := ⟨replaceAmpChars s.data⟩

/-- First maximal digit run of a string, as the matched string
(`re.search(REGEX_QUALITY_FROM_LABEL, label).group(1)` with
`REGEX_QUALITY_FROM_LABEL = (\d+)`). -/
def firstDigitRunStr (s : String) : Option String :=
  searchFirst
    (fun cs =>
      let ds := cs.takeWhile isDigitChar
      if ds.isEmpty then none else some (String.mk ds))
    s.data

/-- Anchored matcher for `REGEX_QUALITY_FROM_URL = \.(\d+)\.`
(group as string). -/
def matchQualityUrlAt (cs : List Char) : Option String :=
  match cs with
  | '.' :: rest =>
    let ds := rest.takeWhile isDigitChar
    if ds.isEmpty then none
    else if (rest.drop ds.length).headD ' ' = '.' then some (String.mk ds)
    else none
  | _ => none

/-- A `<source type="video/mp4">` tag, with the attributes the extractor
reads (`''` models a missing attribute, as `tag.get(attr, '')` does). -/
structure SourceTag where
  src : String
  res : String
  label : String
deriving DecidableEq, Repr

/-- An element carrying `data-player-1080` with its four `data-player-*`
attribute values. -/
structure PlayerElem where
  d1080 : String
  d720 : String
  d480 : String
  d360 : String
deriving DecidableEq, Repr

/-- An episode page as the extractor sees it: the `<source type="video/mp4">`
tags, the `src` of the first `<video class="vjs-tech">` tag (when present),
and the elements carrying `data-player-1080`. -/
structure EpisodePage where
  sourceTags : List SourceTag
  videoTag : Option String
  playerElems : List PlayerElem
deriving DecidableEq, Repr

def VIDEO_QUALITIES : List String := ["1080", "720", "480", "360"]

def PlayerElem.getAttr (e : PlayerElem) (q : String) : String :=
  if q = "1080" then e.d1080
  else if q = "720" then e.d720
  else if q = "480" then e.d480
  else if q = "360" then e.d360
  else ""

/-- `VideoExtractor.extract_from_source_tags`. -/
def extract_from_source_tags (p : EpisodePage) : List (String × String) :=
  p.sourceTags.foldl
    (fun video_urls s =>
      if s.src = "" || !strContains s.src ".mp4" then video_urls
      else
        let quality :=
          if s.res ≠ "" then s.res
          else if s.label ≠ "" then
            match firstDigitRunStr s.label with
            | some q => q
            | none => ""
          else ""
        if quality ≠ "" && s.src ≠ "" then alInsert video_urls quality (replaceAmp s.src)
        else video_urls)
    []

/-- `VideoExtractor.extract_from_video_tag`. -/
def extract_from_video_tag (p : EpisodePage) : List (String × String) :=
  match p.videoTag with
  | none => []
  | some src =>
    if src ≠ "" && strContains src ".mp4" && !strContains src "pixel.png" then
      match searchFirst matchQualityUrlAt src.data with
      | some quality => [(quality, replaceAmp src)]
      | none => []
    else []

/-- `VideoExtractor.extract_from_data_attributes`. -/
def extract_from_data_attributes (p : EpisodePage) : List (String × String) :=
  p.playerElems.foldl
    (fun video_urls e =>
      VIDEO_QUALITIES.foldl
        (fun video_urls q =>
          let url := e.getAttr q
          if url ≠ "" && strContains url ".mp4" then alInsert video_urls q (replaceAmp url)
          else video_urls)
        video_urls)
    []

/-- `dict.update`: fold the entries of `d₂` into `d₁` (later writers win). -/
def pyUpdate (d₁ d₂ : List (String × String)) : List (String × String) :=
  d₂.foldl (fun d p => alInsert d p.1 p.2) d₁

/-- `VideoExtractor.extract_video_urls`: the three strategies in probe order,
merged; error iff the merged dictionary is empty. -/
def extract_video_urls (p : EpisodePage) : Except String (List (String × String)) :=
  let video_urls :=
    pyUpdate (pyUpdate (pyUpdate [] (extract_from_source_tags p)) (extract_from_video_tag p))
      (extract_from_data_attributes p)
  if video_urls.isEmpty then Except.error "Could not extract video URLs from episode page"
  else Except.ok video_urls

/-! ## pydantic assignment semantics

With `frozen=False` and `validate_assignment=True` (the configuration every
entity model declares), pydantic lets `entity.field = value` go through after
re-running the field's validation; with `frozen=True` it would raise.  The
title field of `Episode` carries `min_length=1`. -/

def Episode.setTitle (e : Episode) (t : String) : Option Episode :=
  if Episode.model_config.frozen then none
  else if Episode.model_config.validate_assignment && t.data.isEmpty then none
  else some { e with title := t }

/-! ## Verification-specific definitions -/

/-- Python `a or b` on optional values. -/
def optOr {α : Type} (a b : Option α) : Option α :=
  match a with
  | some v => some v
  | none => b

/-- Concatenation of the arc episode lists of one season entry. -/
def arcsJoin (arcs : List (String × Arc)) : List Episode :=
  (arcs.map fun p => p.2.episodes).flatten

/-- The loop invariant of `_parse_with_seasons` on `seasons_dict`: every
episode stored under key `k` carries `season_number = k`, and the arcs of an
entry collectively hold each episode value at most as often as the entry's
episode list does. -/
def SDictInv (sd : SDict) : Prop :=
  ∀ p ∈ sd, (∀ e ∈ p.2.episodes, e.season_number = some p.1) ∧
    ∀ e : Episode, (arcsJoin p.2.arcs).count e ≤ p.2.episodes.count e

/-- The season-level guarantees a parse provides: episodes carry the season's
number, arc episodes come from the season's episode list, and the arcs
together hold each episode value at most as often as the season does. -/
def SeasonOk (S : Season) : Prop :=
  (∀ e ∈ S.episodes, e.season_number = some S.number) ∧
    (∀ A ∈ S.arcs, ∀ e ∈ A.episodes, e ∈ S.episodes) ∧
    ∀ e : Episode, (S.arcs.map Arc.episodes).flatten.count e ≤ S.episodes.count e

/-! ## A concrete page with one season, two arcs and a duplicated episode
link (used to exercise the season/arc pipeline) -/

def exEpisode : Episode :=
  ⟨1, "Эп", "https://jut.su/anime/x/season-1/episode-1.html", some 1⟩

def exArcA : Arc := ⟨"Часть 1", [exEpisode], none⟩

def exArcB : Arc := ⟨"Часть 2", [exEpisode], none⟩

def exSeason : Season := ⟨1, [exEpisode, exEpisode], [exArcA, exArcB], none⟩

def exPage : AnimePage :=
  ⟨[.head ⟨["the-anime-season", "need_bold_season"], "1 сезон", ""⟩,
    .head ⟨["the-anime-season"], "Часть 1", ""⟩,
    .link ⟨"/anime/x/season-1/episode-1.html", none, "Эп"⟩,
    .head ⟨["the-anime-season"], "Часть 2", ""⟩,
    .link ⟨"/anime/x/season-1/episode-1.html", none, "Эп"⟩], true⟩

end Jutsu

namespace Jutsu

/-! # Theorems -/

/-! ## C4: Rating construction -/

/-- C4: for every (value, best, worst) and non-negative vote count, `Rating`
construction succeeds if and only if `worst ≤ value ≤ best`. -/
theorem rating_construct_iff_bounds (value best worst : ℚ) (count : ℤ) (hc : 0 ≤ count) :
    (Rating.construct value best worst count).isSome = true ↔
      (worst ≤ value ∧ value ≤ best) := by
  unfold Rating.construct
  rw [if_pos hc]
  split <;> simp_all

/-- C4 witness: the in-bounds instance `construct(value 5, bounds [1, 10])`
succeeds. -/
theorem rating_construct_iff_bounds_witness :
    (0 : ℤ) ≤ 0 ∧
      ((Rating.construct 5 10 1 0).isSome = true ↔ ((1 : ℚ) ≤ 5 ∧ (5 : ℚ) ≤ 10)) :=
  ⟨le_refl 0, rating_construct_iff_bounds 5 10 1 0 (le_refl 0)⟩

/-! ## C9: entity (im)mutability -/

/-- C9 counterexample: the entity models are declared with `frozen=False`, and
a field of an already-constructed `Episode` can be reassigned (validated
assignment succeeds), contradicting the claimed immutability. -/
theorem entities_frozen_false_cex :
    Anime.model_config.frozen = false ∧ Episode.model_config.frozen = false ∧
      Episode.setTitle ⟨1, "Серия", "https://jut.su/e", none⟩ "Другая" =
        some ⟨1, "Другая", "https://jut.su/e", none⟩ :=
  ⟨rfl, rfl, rfl⟩

/-- C9 amended: all five entity models are declared mutable
(`frozen=False`) with validated assignment (`validate_assignment=True`);
reassigning a field of a returned entity succeeds whenever the new value
passes the field's validation. -/
theorem entities_mutable_config :
    (Anime.model_config.frozen = false ∧ Episode.model_config.frozen = false ∧
       Season.model_config.frozen = false ∧ Arc.model_config.frozen = false ∧
       Rating.model_config.frozen = false) ∧
      (Anime.model_config.validate_assignment = true ∧
       Episode.model_config.validate_assignment = true ∧
       Season.model_config.validate_assignment = true ∧
       Arc.model_config.validate_assignment = true ∧
       Rating.model_config.validate_assignment = true) ∧
      ∀ (e : Episode) (t : String), t.data.isEmpty = false →
        Episode.setTitle e t = some { e with title := t } := by
  refine ⟨⟨rfl, rfl, rfl, rfl, rfl⟩, ⟨rfl, rfl, rfl, rfl, rfl⟩, ?_⟩
  intro e t ht
  simp [Episode.setTitle, Episode.model_config, ht]

/-- C9 witness: a concrete validated reassignment. -/
theorem entities_mutable_config_witness :
    ("Новая" : String).data.isEmpty = false ∧
      Episode.setTitle ⟨2, "Серия", "https://jut.su/e2", none⟩ "Новая" =
        some ⟨2, "Новая", "https://jut.su/e2", none⟩ :=
  ⟨rfl, entities_mutable_config.2.2 ⟨2, "Серия", "https://jut.su/e2", none⟩ "Новая" rfl⟩

/-! ## Helper lemmas on the matching and dictionary primitives -/

/-- A successful `re.search` means some suffix matches at its head. -/
theorem searchFirst_some {α : Type} {f : List Char → Option α} {cs : List Char} {v : α}
    (h : searchFirst f cs = some v) : ∃ t, t <:+ cs ∧ f t = some v := by
  induction cs with
  | nil => exact ⟨[], List.suffix_rfl, h⟩
  | cons c cs ih =>
    rw [searchFirst] at h
    cases hf : f (c :: cs) with
    | some w =>
      rw [hf] at h
      cases h
      exact ⟨c :: cs, List.suffix_rfl, hf⟩
    | none =>
      rw [hf] at h
      obtain ⟨t, ht, hft⟩ := ih h
      exact ⟨t, ht.trans (List.suffix_cons c cs), hft⟩

theorem optOr_none_right {α : Type} (a : Option α) : optOr a none = a := by
  cases a <;> rfl

theorem alInsert_ne_nil {κ β : Type} [DecidableEq κ] (d : List (κ × β)) (k : κ) (v : β) :
    alInsert d k v ≠ [] := by
  cases d with
  | nil => simp [alInsert]
  | cons p rest => unfold alInsert; split <;> simp

theorem alLookup_eq_none_of_not_mem {κ β : Type} [DecidableEq κ] {d : List (κ × β)} {k : κ}
    (h : k ∉ d.map Prod.fst) : alLookup d k = none := by
  induction d with
  | nil => rfl
  | cons p rest ih =>
    simp only [List.map_cons, List.mem_cons, not_or] at h
    unfold alLookup
    rw [if_neg fun he => h.1 he.symm]
    exact ih h.2

theorem alLookup_alInsert {κ β : Type} [DecidableEq κ] (d : List (κ × β)) (k : κ) (v : β)
    (k' : κ) : alLookup (alInsert d k v) k' = if k = k' then some v else alLookup d k' := by
  induction d with
  | nil => by_cases h : k = k' <;> simp [alInsert, alLookup, h]
  | cons p rest ih =>
    unfold alInsert
    by_cases h1 : p.1 = k <;> by_cases h2 : k = k' <;> simp_all [alLookup]

theorem mem_keys_alInsert {κ β : Type} [DecidableEq κ] {d : List (κ × β)} {k a : κ} {v : β} :
    a ∈ (alInsert d k v).map Prod.fst ↔ a ∈ d.map Prod.fst ∨ a = k := by
  induction d with
  | nil => simp [alInsert]
  | cons p rest ih =>
    unfold alInsert
    split
    · rename_i h
      subst h
      simp only [List.map_cons, List.mem_cons]
      tauto
    · simp only [List.map_cons, List.mem_cons, ih]
      tauto

theorem keys_alInsert_nodup {κ β : Type} [DecidableEq κ] {d : List (κ × β)} (k : κ) (v : β)
    (h : (d.map Prod.fst).Nodup) : ((alInsert d k v).map Prod.fst).Nodup := by
  induction d with
  | nil => simp [alInsert]
  | cons p rest ih =>
    simp only [List.map_cons, List.nodup_cons] at h
    unfold alInsert
    split
    · simpa [List.nodup_cons] using h
    · rename_i hne
      simp only [List.map_cons, List.nodup_cons]
      refine ⟨fun hmem => ?_, ih h.2⟩
      rcases mem_keys_alInsert.mp hmem with hin | heq
      · exact h.1 hin
      · exact hne heq

theorem pyUpdate_eq_nil_iff (d₁ d₂ : List (String × String)) :
    pyUpdate d₁ d₂ = [] ↔ d₁ = [] ∧ d₂ = [] := by
  induction d₂ generalizing d₁ with
  | nil => simp [pyUpdate]
  | cons p rest ih =>
    show pyUpdate (alInsert d₁ p.1 p.2) rest = [] ↔ _
    rw [ih]
    simp [alInsert_ne_nil]

theorem keys_pyUpdate_nodup (d₁ d₂ : List (String × String))
    (h : (d₁.map Prod.fst).Nodup) : ((pyUpdate d₁ d₂).map Prod.fst).Nodup := by
  induction d₂ generalizing d₁ with
  | nil => exact h
  | cons p rest ih => exact ih _ (keys_alInsert_nodup p.1 p.2 h)

/-- Lookup through `dict.update`: the updating dictionary wins
(its keys are unique in every use below). -/
theorem alLookup_pyUpdate (d₁ d₂ : List (String × String)) (k : String)
    (hnd : (d₂.map Prod.fst).Nodup) :
    alLookup (pyUpdate d₁ d₂) k = optOr (alLookup d₂ k) (alLookup d₁ k) := by
  induction d₂ generalizing d₁ with
  | nil => simp [pyUpdate, alLookup, optOr]
  | cons p rest ih =>
    simp only [List.map_cons, List.nodup_cons] at hnd
    show alLookup (pyUpdate (alInsert d₁ p.1 p.2) rest) k = _
    rw [ih _ hnd.2, alLookup_alInsert]
    by_cases hk : p.1 = k
    · subst hk
      have hnone : alLookup rest p.1 = none := alLookup_eq_none_of_not_mem hnd.1
      simp [alLookup, optOr, hnone]
    · simp [alLookup, optOr, hk]

/-! ## C10: season-number fallback scan -/

/-- C10: when none of the four ordered patterns of
`extract_season_number` yields an in-range number, the function falls back to
scanning every maximal digit run of the text in order, returning the first
one in `[1, 20]`, and returns `none` exactly when no digit run is in that
range. -/
theorem extract_season_number_fallback (text : String)
    (h1 : tryPat (searchFirst matchNumSeasonAt text.data) = none)
    (h2 : tryPat (searchFirst matchParenNumSeasonAt text.data) = none)
    (h3 : tryPat (searchFirst matchParenNumAt text.data) = none)
    (h4 : tryPat (matchLeadingNum text.data) = none) :
    extract_season_number text = (digitRuns text.data).find? seasonInRange ∧
      (extract_season_number text = none ↔
        ∀ n ∈ digitRuns text.data, seasonInRange n = false) := by
  have he : extract_season_number text = (digitRuns text.data).find? seasonInRange := by
    unfold extract_season_number
    rw [h1, h2, h3, h4]
  refine ⟨he, ?_⟩
  rw [he, List.find?_eq_none]
  simp

/-- C10 witness: on `"сезон 25 и 3"` all four patterns fail, and the fallback
scan skips the out-of-range `25` and returns `3`. -/
theorem extract_season_number_fallback_witness :
    tryPat (searchFirst matchNumSeasonAt "сезон 25 и 3".data) = none ∧
      extract_season_number "сезон 25 и 3" =
        (digitRuns "сезон 25 и 3".data).find? seasonInRange ∧
      extract_season_number "сезон 25 и 3" = some 3 :=
  ⟨rfl,
   (extract_season_number_fallback "сезон 25 и 3" rfl rfl rfl rfl).1,
   rfl⟩

/-! ## C8: year extraction -/

/-- C8 counterexample: on the single text `"2019–2020"` the year collection
yields only `{2019}` — `extract_year_from_text` stops at the first 4-digit
window of each text, so `2020` is never extracted, contradicting the claimed
`{2019, 2020}`. -/
theorem year_extraction_range_cex :
    parse_years ["2019–2020"] [] = ([2019], some 2019) ∧
      (parse_years ["2019–2020"] []).1.contains 2020 = false :=
  ⟨rfl, rfl⟩

/-- C8 amended: `"Вышла в 2019 году"` yields 2019; the single text
`"2019–2020"` yields only the year set `{2019}` with primary year 2019 (only
the first 4-digit window of a text is considered); and any text with no
4-consecutive-digit window in `[1900, 2100]` yields no year. -/
theorem year_extraction_spec :
    extract_year_from_text "Вышла в 2019 году" = some 2019 ∧
      parse_years ["2019–2020"] [] = ([2019], some 2019) ∧
      ∀ text : String, hasYearWindowInRange text = false →
        extract_year_from_text text = none := by
  refine ⟨rfl, rfl, ?_⟩
  intro text hwin
  unfold extract_year_from_text
  cases hs : searchFirst matchYearAt text.data with
  | none => rfl
  | some y =>
    by_cases hy : (MIN_YEAR ≤ y && y ≤ MAX_YEAR) = true
    · exfalso
      obtain ⟨t, ht, hft⟩ := searchFirst_some hs
      have : hasYearWindowInRange text = true := by
        unfold hasYearWindowInRange
        rw [List.any_eq_true]
        refine ⟨t, (List.mem_tails t text.data).mpr ht, ?_⟩
        simp only [hft]
        exact hy
      rw [this] at hwin
      cases hwin
    · simp [hy]

/-- C8 witness: `"в 1234 году"` has a 4-digit window but none in range, and
yields no year. -/
theorem year_extraction_spec_witness :
    hasYearWindowInRange "в 1234 году" = false ∧
      extract_year_from_text "в 1234 году" = none :=
  ⟨rfl, year_extraction_spec.2.2 "в 1234 году" rfl⟩

/-! ## C3: video-URL strategy merge -/

theorem keys_nodup_foldl {α : Type} (f : List (String × String) → α → List (String × String))
    (hf : ∀ d a, (d.map Prod.fst).Nodup → ((f d a).map Prod.fst).Nodup)
    (l : List α) (d : List (String × String)) (hd : (d.map Prod.fst).Nodup) :
    ((l.foldl f d).map Prod.fst).Nodup := by
  induction l generalizing d with
  | nil => exact hd
  | cons a rest ih => exact ih _ (hf d a hd)

theorem keys_source_tags_nodup (p : EpisodePage) :
    ((extract_from_source_tags p).map Prod.fst).Nodup := by
  unfold extract_from_source_tags
  refine keys_nodup_foldl _ ?_ _ _ (by simp)
  intro d a hd
  dsimp only
  repeat' split
  all_goals first
  | exact hd
  | exact keys_alInsert_nodup _ _ hd

theorem keys_video_tag_nodup (p : EpisodePage) :
    ((extract_from_video_tag p).map Prod.fst).Nodup := by
  unfold extract_from_video_tag
  split
  · simp
  · split
    · split <;> simp
    · simp

theorem keys_data_attributes_nodup (p : EpisodePage) :
    ((extract_from_data_attributes p).map Prod.fst).Nodup := by
  unfold extract_from_data_attributes
  refine keys_nodup_foldl _ ?_ _ _ (by simp)
  intro d a hd
  refine keys_nodup_foldl _ ?_ _ _ hd
  intro d' q hd'
  dsimp only
  repeat' split
  all_goals first
  | exact hd'
  | exact keys_alInsert_nodup _ _ hd'

/-- C3: `extract_video_urls` merges exactly the three strategies in probe
order (source tags, then the single video tag, then data attributes), a later
strategy's entry overwriting an earlier one with the same quality key, and it
raises `VideoExtractionError` if and only if all three strategies come back
empty. -/
theorem extract_video_urls_spec (p : EpisodePage) :
    (extract_video_urls p = Except.error "Could not extract video URLs from episode page" ↔
      extract_from_source_tags p = [] ∧ extract_from_video_tag p = [] ∧
        extract_from_data_attributes p = []) ∧
      ∀ d, extract_video_urls p = Except.ok d → ∀ k,
        alLookup d k =
          optOr (alLookup (extract_from_data_attributes p) k)
            (optOr (alLookup (extract_from_video_tag p) k)
              (alLookup (extract_from_source_tags p) k)) := by
  have hmerge :
      ∀ k, alLookup (pyUpdate (pyUpdate (pyUpdate [] (extract_from_source_tags p))
          (extract_from_video_tag p)) (extract_from_data_attributes p)) k =
        optOr (alLookup (extract_from_data_attributes p) k)
          (optOr (alLookup (extract_from_video_tag p) k)
            (alLookup (extract_from_source_tags p) k)) := by
    intro k
    rw [alLookup_pyUpdate _ _ _ (keys_data_attributes_nodup p),
      alLookup_pyUpdate _ _ _ (keys_video_tag_nodup p),
      alLookup_pyUpdate _ _ _ (keys_source_tags_nodup p)]
    simp only [alLookup, optOr_none_right]
  have hempty :
      pyUpdate (pyUpdate (pyUpdate [] (extract_from_source_tags p))
          (extract_from_video_tag p)) (extract_from_data_attributes p) = [] ↔
        extract_from_source_tags p = [] ∧ extract_from_video_tag p = [] ∧
          extract_from_data_attributes p = [] := by
    rw [pyUpdate_eq_nil_iff, pyUpdate_eq_nil_iff, pyUpdate_eq_nil_iff]
    tauto
  unfold extract_video_urls
  dsimp only
  split
  · rename_i hnil
    rw [List.isEmpty_iff] at hnil
    constructor
    · simpa using hempty.mp hnil
    · intro d hd
      cases hd
  · rename_i hnil
    rw [List.isEmpty_iff] at hnil
    constructor
    · constructor
      · intro h
        cases h
      · intro h
        exact absurd (hempty.mpr h) hnil
    · intro d hd k
      cases hd
      exact hmerge k

/-- C3 witness: the spec's example page — a source tag offering quality 720
and a data attribute offering 1080 — merges to both entries, and the lookup
follows the probe order. -/
theorem extract_video_urls_spec_witness :
    extract_video_urls ⟨[⟨"/v/a.mp4", "720", ""⟩], none, [⟨"/v/b.mp4", "", "", ""⟩]⟩ =
        Except.ok [("720", "/v/a.mp4"), ("1080", "/v/b.mp4")] ∧
      alLookup [("720", "/v/a.mp4"), ("1080", "/v/b.mp4")] "1080" =
        optOr
          (alLookup
            (extract_from_data_attributes ⟨[⟨"/v/a.mp4", "720", ""⟩], none,
              [⟨"/v/b.mp4", "", "", ""⟩]⟩) "1080")
          (optOr
            (alLookup
              (extract_from_video_tag ⟨[⟨"/v/a.mp4", "720", ""⟩], none,
                [⟨"/v/b.mp4", "", "", ""⟩]⟩) "1080")
            (alLookup
              (extract_from_source_tags ⟨[⟨"/v/a.mp4", "720", ""⟩], none,
                [⟨"/v/b.mp4", "", "", ""⟩]⟩) "1080")) :=
  ⟨rfl,
   (extract_video_urls_spec ⟨[⟨"/v/a.mp4", "720", ""⟩], none, [⟨"/v/b.mp4", "", "", ""⟩]⟩).2
     [("720", "/v/a.mp4"), ("1080", "/v/b.mp4")] rfl "1080"⟩

/-! ## C7: placeholder-image filtering -/

/-- C7 counterexample: a `<source>` tag whose src contains `pixel.png` (and
`.mp4`) is accepted by the source-tag strategy and its URL appears in the
final mapping of `extract_video_urls`, contradicting the claim that such
URLs never appear. -/
theorem pixel_url_accepted_cex :
    extract_video_urls ⟨[⟨"/video/pixel.png.mp4", "720", ""⟩], none, []⟩ =
        Except.ok [("720", "/video/pixel.png.mp4")] ∧
      strContains "/video/pixel.png.mp4" "pixel.png" = true :=
  ⟨rfl, rfl⟩

/-- C7 amended: only the single-video-tag strategy rejects placeholder URLs —
a video-tag src containing `pixel.png` yields nothing from that strategy; the
source-tag and data-attribute strategies perform no such check, so
placeholder-containing URLs can still appear in the merged mapping through
them. -/
theorem video_tag_rejects_pixel (p : EpisodePage) (src : String)
    (hp : p.videoTag = some src) (hpix : strContains src "pixel.png" = true) :
    extract_from_video_tag p = [] := by
  unfold extract_from_video_tag
  rw [hp]
  simp [hpix]

/-- C7 witness: a concrete placeholder src in the video tag is rejected. -/
theorem video_tag_rejects_pixel_witness :
    (⟨[], some "/s/pixel.png.mp4", []⟩ : EpisodePage).videoTag = some "/s/pixel.png.mp4" ∧
      strContains "/s/pixel.png.mp4" "pixel.png" = true ∧
      extract_from_video_tag ⟨[], some "/s/pixel.png.mp4", []⟩ = [] :=
  ⟨rfl, rfl, video_tag_rejects_pixel ⟨[], some "/s/pixel.png.mp4", []⟩ "/s/pixel.png.mp4" rfl rfl⟩

/-! ## C5: heading classification -/

/-- Membership behaviour of the classification loop: a part header always
lands among the arc candidates, and a non-part header carrying the
`need_bold_season` class always lands among the season headers, regardless of
the rest of the document. -/
theorem classify_go_mem (doc : Doc) (l : List (Nat × Header)) (p : Nat × Header)
    (hp : p ∈ l) :
    (is_part_header p.2.text p.2.titleAttr = true → p ∈ (classifyHeaders.go doc l).2) ∧
      (is_part_header p.2.text p.2.titleAttr = false →
        p.2.classes.contains "need_bold_season" = true → p ∈ (classifyHeaders.go doc l).1) := by
  induction l with
  | nil => cases hp
  | cons q rest ih =>
    rcases List.mem_cons.mp hp with rfl | hmem
    · constructor
      · intro hpart
        show p ∈ (classifyHeaders.go doc (p :: rest)).2
        rw [classifyHeaders.go, if_pos hpart]
        exact List.mem_cons_self _ _
      · intro hpart hbold
        show p ∈ (classifyHeaders.go doc (p :: rest)).1
        rw [classifyHeaders.go, if_neg (by simp [hpart]), if_pos (by
          unfold classifySeason
          rw [if_pos hbold])]
        exact List.mem_cons_self _ _
    · obtain ⟨ih2, ih1⟩ := ih hmem
      constructor
      · intro hpart
        rw [classifyHeaders.go]
        split
        · exact List.mem_cons_of_mem _ (ih2 hpart)
        · split
          · exact ih2 hpart
          · exact List.mem_cons_of_mem _ (ih2 hpart)
      · intro hpart hbold
        rw [classifyHeaders.go]
        split
        · exact ih1 hpart hbold
        · split
          · exact List.mem_cons_of_mem _ (ih1 hpart hbold)
          · exact ih1 hpart hbold

/-- C5 amended: the `is_part_header` test wins unconditionally — any selected
heading on which it fires (in particular any heading matching the
`часть N` / `part N` pattern) is classified as an arc candidate regardless of
its class markers; otherwise a heading carrying the `need_bold_season` marker
class is classified as a season regardless of neighbouring headers.  (The
`is_part_header` test also fires on a bare `часть` substring without digits,
and on a `title` attribute containing `part` without `season`; such headings
are arc candidates even when they carry the marker class.) -/
theorem classify_headers_spec (doc : Doc) (i : Nat) (h : Header)
    (hmem : (i, h) ∈ seasonHeaderNodes doc) :
    (searchPartPattern (pyLower (h.text ++ " " ++ h.titleAttr)) = true →
      is_part_header h.text h.titleAttr = true) ∧
      (is_part_header h.text h.titleAttr = true → (i, h) ∈ (classifyHeaders doc).2) ∧
      (is_part_header h.text h.titleAttr = false →
        h.classes.contains "need_bold_season" = true → (i, h) ∈ (classifyHeaders doc).1) := by
  refine ⟨?_, (classify_go_mem doc _ _ hmem).1, (classify_go_mem doc _ _ hmem).2⟩
  intro hsearch
  unfold is_part_header
  rw [if_pos hsearch]

/-- C5 witness: on a document with a bold-marked `"2 сезон"` heading followed
by a bold-marked `"часть 2"` heading, the former classifies as a season and
the latter as an arc candidate (the part pattern beats the class marker). -/
theorem classify_headers_spec_witness :
    (0, (⟨["the-anime-season", "need_bold_season"], "2 сезон", ""⟩ : Header)) ∈
        (classifyHeaders
          [.head ⟨["the-anime-season", "need_bold_season"], "2 сезон", ""⟩,
           .head ⟨["the-anime-season", "need_bold_season"], "часть 2", ""⟩]).1 ∧
      (1, (⟨["the-anime-season", "need_bold_season"], "часть 2", ""⟩ : Header)) ∈
        (classifyHeaders
          [.head ⟨["the-anime-season", "need_bold_season"], "2 сезон", ""⟩,
           .head ⟨["the-anime-season", "need_bold_season"], "часть 2", ""⟩]).2 :=
  ⟨(classify_headers_spec
      [.head ⟨["the-anime-season", "need_bold_season"], "2 сезон", ""⟩,
       .head ⟨["the-anime-season", "need_bold_season"], "часть 2", ""⟩]
      0 ⟨["the-anime-season", "need_bold_season"], "2 сезон", ""⟩ (by decide)).2.2 rfl rfl,
   (classify_headers_spec
      [.head ⟨["the-anime-season", "need_bold_season"], "2 сезон", ""⟩,
       .head ⟨["the-anime-season", "need_bold_season"], "часть 2", ""⟩]
      1 ⟨["the-anime-season", "need_bold_season"], "часть 2", ""⟩ (by decide)).2.1 rfl⟩

/-- C5 counterexample: a heading with the `need_bold_season` marker class
whose text contains the bare substring `часть` (no digits, so the
`часть N`/`part N` pattern does not match) is classified as an arc candidate,
not as a season, contradicting the claim that any non-pattern heading with
the marker class classifies as a season. -/
theorem bold_season_part_substring_cex :
    searchPartPattern (pyLower ("Сезон часть" ++ " " ++ "")) = false ∧
      (["the-anime-season", "need_bold_season"] : List String).contains
          "need_bold_season" = true ∧
      (classifyHeaders
        [.head ⟨["the-anime-season", "need_bold_season"], "Сезон часть", ""⟩]).1 = [] ∧
      (classifyHeaders
        [.head ⟨["the-anime-season", "need_bold_season"], "Сезон часть", ""⟩]).2 =
        [(0, ⟨["the-anime-season", "need_bold_season"], "Сезон часть", ""⟩)] :=
  ⟨rfl, rfl, rfl, rfl⟩

/-! ## C6: episode field guarantees -/

theorem prefix_of_append_spaces (pre : List Char) :
    ∀ (res sps rest : List Char), (∀ c ∈ pre, isSpaceChar c = false) →
      pre ++ rest = res ++ sps → (∀ c ∈ sps, isSpaceChar c = true) → pre <+: res := by
  induction pre with
  | nil => intro res sps rest _ _ _; exact List.nil_prefix
  | cons c pre ih =>
    intro res sps rest hpre heq hsps
    cases res with
    | nil =>
      exfalso
      simp only [List.nil_append] at heq
      have hc : c ∈ sps := by rw [← heq]; exact List.mem_cons_self _ _
      have h1 := hsps c hc
      have h2 := hpre c (List.mem_cons_self _ _)
      rw [h1] at h2
      cases h2
    | cons r res2 =>
      simp only [List.cons_append] at heq
      injection heq with h1 h2
      subst h1
      rw [List.cons_prefix_cons]
      exact ⟨rfl, ih res2 sps rest (fun x hx => hpre x (List.mem_cons_of_mem _ hx)) h2 hsps⟩

/-- `str.strip()` keeps any non-empty prefix of non-whitespace characters. -/
theorem pyStrip_keeps_nonspace_head (pre cs : List Char)
    (hpre : ∀ c ∈ pre, isSpaceChar c = false) (hne : pre ≠ [])
    (hpref : pre <+: cs) : pre <+: pyStrip cs := by
  obtain ⟨rest, rfl⟩ := hpref
  have hdrop : (pre ++ rest).dropWhile isSpaceChar = pre ++ rest := by
    cases pre with
    | nil => exact absurd rfl hne
    | cons c pre2 =>
      rw [List.cons_append, List.dropWhile_cons]
      simp [hpre c (List.mem_cons_self _ _)]
  unfold pyStrip
  rw [hdrop]
  have hsplit := List.takeWhile_append_dropWhile isSpaceChar (pre ++ rest).reverse
  have heq : pre ++ rest =
      ((pre ++ rest).reverse.dropWhile isSpaceChar).reverse ++
        ((pre ++ rest).reverse.takeWhile isSpaceChar).reverse := by
    conv_lhs => rw [← List.reverse_reverse (pre ++ rest), ← hsplit]
    rw [List.reverse_append]
  refine prefix_of_append_spaces pre _ _ rest hpre heq ?_
  intro c hc
  rw [List.mem_reverse] at hc
  exact List.mem_takeWhile_imp hc

/-- The normalised, stripped episode URL always starts with `http`. -/
theorem http_prefix_normalize (url : String) :
    "http".data <+: pyStrip (normalize_url url).data := by
  have hsp : ∀ c ∈ "http".data, isSpaceChar c = false := by decide
  have hne : "http".data ≠ [] := by decide
  refine pyStrip_keeps_nonspace_head _ _ hsp hne ?_
  unfold normalize_url
  split
  · rw [String.data_append]
    exact List.IsPrefix.trans (show "http".data <+: BASE_URL.data by decide)
      (List.prefix_append _ _)
  · split
    · rename_i hhttp
      exact List.isPrefixOf_iff_prefix.mp hhttp
    · rw [String.data_append, String.data_append]
      rw [List.append_assoc]
      exact List.IsPrefix.trans (show "http".data <+: BASE_URL.data by decide)
        (List.prefix_append _ _)

/-- What a successful `Episode` construction guarantees about the stored
fields. -/
theorem episode_construct_spec (number : Nat) (title url : String) (sn : Option Nat)
    (e : Episode) (h : Episode.construct number title url sn = some e) :
    e.number = number ∧ e.title = title ∧ e.url = pyStripStr url ∧ e.season_number = sn ∧
      number ≠ 0 ∧ title ≠ "" ∧ pyStrip url.data ≠ [] ∧ ∀ s, sn = some s → s ≠ 0 := by
  unfold Episode.construct at h
  by_cases h1 : number = 0
  · rw [if_pos h1] at h; cases h
  rw [if_neg h1] at h
  by_cases h2 : title.data.isEmpty = true
  · rw [if_pos h2] at h; cases h
  rw [if_neg h2] at h
  by_cases h3 : url.data.isEmpty = true
  · rw [if_pos h3] at h; cases h
  rw [if_neg h3] at h
  by_cases h4 : (pyStrip url.data).isEmpty = true
  · rw [if_pos h4] at h; cases h
  rw [if_neg h4] at h
  have htitle0 : title ≠ "" := by
    intro he
    subst he
    simp at h2
  have hstrip0 : pyStrip url.data ≠ [] := by
    intro he
    rw [← List.isEmpty_iff] at he
    exact h4 he
  cases sn with
  | none =>
    dsimp only at h
    cases h
    refine ⟨rfl, rfl, rfl, rfl, h1, htitle0, hstrip0, ?_⟩
    intro s hs
    cases hs
  | some sval =>
    dsimp only at h
    by_cases h5 : sval = 0
    · rw [if_pos h5] at h; cases h
    rw [if_neg h5] at h
    cases h
    refine ⟨rfl, rfl, rfl, rfl, h1, htitle0, hstrip0, ?_⟩
    intro s hs
    cases hs
    exact h5

/-- C6 amended: every `Episode` a parse produces has a positive number, a
non-empty title, a non-empty absolute (`http…`) URL and an optional positive
season back-reference; a link whose title cannot be extracted produces no
episode at all (its `ValidationError` is caught and the link is skipped)
rather than an episode with an empty title. -/
theorem episode_fields_spec (l : Link) (ks : List Nat) (e : Episode)
    (h : parse_episode_link l ks = some e) :
    0 < e.number ∧ e.title ≠ "" ∧ e.url ≠ "" ∧ "http".data <+: e.url.data ∧
      ∀ s, e.season_number = some s → 0 < s := by
  unfold parse_episode_link at h
  cases hsearch : searchFirst matchEpisodeAt l.href.data with
  | none =>
    rw [hsearch] at h
    cases h
  | some ep_num =>
  rw [hsearch] at h
  cases hres : resolveSeason (searchFirst matchSeasonAt l.href.data) ks with
  | none =>
    rw [hres] at h
    cases h
  | some sn =>
  rw [hres] at h
  obtain ⟨hnum, htitle, hurl, hsn, hnum0, htitle0, hstrip, hsnpos⟩ :=
    episode_construct_spec _ _ _ _ _ h
  refine ⟨?_, ?_, ?_, ?_, ?_⟩
  · rw [hnum]
    exact Nat.pos_of_ne_zero hnum0
  · rw [htitle]
    exact htitle0
  · rw [hurl]
    intro he
    apply hstrip
    have hd := congrArg String.data he
    simpa [pyStripStr] using hd
  · rw [hurl]
    exact http_prefix_normalize l.href
  · intro s hs
    rw [hsn] at hs
    exact Nat.pos_of_ne_zero (hsnpos s hs)

/-- C6 counterexample: a link with a valid episode href but no extractable
title is dropped entirely by `_parse_episode_link` (the `ValidationError` of
the empty title is caught and `None` returned) — the parse result does not
contain an episode with an empty title for it, contradicting the claim that
the title "is the empty string when no title could be extracted". -/
theorem empty_title_episode_dropped_cex :
    extractEpisodeTitle ⟨"/anime/x/episode-1.html", none, ""⟩ = "" ∧
      parse_episode_link ⟨"/anime/x/episode-1.html", none, ""⟩ [] = none :=
  ⟨rfl, rfl⟩

/-- C6 witness: a concrete successfully parsed link has a positive number and
a non-empty title. -/
theorem episode_fields_spec_witness :
    0 < (⟨1, "Эп", "https://jut.su/anime/x/episode-1.html", none⟩ : Episode).number ∧
      (⟨1, "Эп", "https://jut.su/anime/x/episode-1.html", none⟩ : Episode).title ≠ "" :=
  ⟨(episode_fields_spec ⟨"/anime/x/episode-1.html", none, "Эп"⟩ []
      ⟨1, "Эп", "https://jut.su/anime/x/episode-1.html", none⟩ rfl).1,
   (episode_fields_spec ⟨"/anime/x/episode-1.html", none, "Эп"⟩ []
      ⟨1, "Эп", "https://jut.su/anime/x/episode-1.html", none⟩ rfl).2.1⟩

/-! ## C2: flat episode list ordering -/

theorem pyInsert_perm {α : Type} (le : α → α → Bool) (a : α) (l : List α) :
    List.Perm (pyInsert le a l) (a :: l) := by
  induction l with
  | nil => exact List.Perm.refl _
  | cons b t ih =>
    unfold pyInsert
    split
    · exact List.Perm.refl _
    · exact (ih.cons b).trans (List.Perm.swap a b t)

theorem pySort_perm {α : Type} (le : α → α → Bool) (l : List α) :
    List.Perm (pySort le l) l := by
  induction l with
  | nil => exact List.Perm.refl _
  | cons a t ih => exact (pyInsert_perm le a (pySort le t)).trans (ih.cons a)

theorem mem_pyInsert {α : Type} {le : α → α → Bool} {a x : α} {l : List α} :
    x ∈ pyInsert le a l ↔ x = a ∨ x ∈ l := by
  rw [(pyInsert_perm le a l).mem_iff]
  exact List.mem_cons

theorem pairwise_pyInsert {α : Type} (le : α → α → Bool)
    (htrans : ∀ a b c, le a b = true → le b c = true → le a c = true)
    (htotal : ∀ a b, le a b = true ∨ le b a = true)
    (a : α) (l : List α) (hl : l.Pairwise (fun x y => le x y = true)) :
    (pyInsert le a l).Pairwise (fun x y => le x y = true) := by
  induction l with
  | nil => simp [pyInsert]
  | cons b t ih =>
    rw [List.pairwise_cons] at hl
    obtain ⟨hb, ht⟩ := hl
    unfold pyInsert
    split
    · rename_i hab
      rw [List.pairwise_cons]
      refine ⟨?_, List.Pairwise.cons hb ht⟩
      intro y hy
      rcases List.mem_cons.mp hy with rfl | hyt
      · exact hab
      · exact htrans a b y hab (hb y hyt)
    · rename_i hab
      rw [List.pairwise_cons]
      refine ⟨?_, ih ht⟩
      intro y hy
      rcases mem_pyInsert.mp hy with hya | hyt
      · rw [hya]
        rcases htotal a b with h1 | h1
        · exact absurd h1 hab
        · exact h1
      · exact hb y hyt

theorem pairwise_pySort {α : Type} (le : α → α → Bool)
    (htrans : ∀ a b c, le a b = true → le b c = true → le a c = true)
    (htotal : ∀ a b, le a b = true ∨ le b a = true) (l : List α) :
    (pySort le l).Pairwise (fun x y => le x y = true) := by
  induction l with
  | nil => simp [pySort]
  | cons a t ih => exact pairwise_pyInsert le htrans htotal a _ ih

theorem epLe_trans (a b c : Episode) (h1 : epLe a b = true) (h2 : epLe b c = true) :
    epLe a c = true := by
  unfold epLe pairLe at *
  simp only [Bool.or_eq_true, Bool.and_eq_true, decide_eq_true_eq] at *
  omega

theorem epLe_total (a b : Episode) : epLe a b = true ∨ epLe b a = true := by
  unfold epLe pairLe
  simp only [Bool.or_eq_true, Bool.and_eq_true, decide_eq_true_eq]
  omega

/-- C2 counterexample: a page repeating one episode link parses to a flat
list with two episodes carrying the same `(season_number or 0, number)` key
`(0, 1)` — the parser performs no deduplication, contradicting the claimed
absence of duplicate pairs. -/
theorem duplicate_episode_pairs_cex :
    (parse_episodes_and_seasons
        ⟨[.link ⟨"/anime/x/episode-1.html", none, "Эп"⟩,
          .link ⟨"/anime/x/episode-1.html", none, "Эп"⟩], true⟩).map
        (fun r => r.1.map epKey) =
      some [(0, 1), (0, 1)] := rfl

/-- C2 amended: the flat `episodes` list of every successful parse is sorted
non-decreasing by the key `(season_number treated as 0 when absent, episode
number)`; duplicate key pairs can occur (exactly when the page repeats an
episode link), since the parser never deduplicates. -/
theorem episodes_flat_sorted (page : AnimePage) (eps : List Episode) (seasons : List Season)
    (h : parse_episodes_and_seasons page = some (eps, seasons)) :
    eps.Pairwise (fun a b => epLe a b = true) := by
  unfold parse_episodes_and_seasons at h
  cases hstep : parse_stage1 page with
  | none =>
    rw [hstep] at h
    cases h
  | some r =>
    rw [hstep] at h
    dsimp only at h
    injection h with h2
    have heps : eps = pySort epLe r.1 := (congrArg Prod.fst h2).symm
    rw [heps]
    exact pairwise_pySort epLe epLe_trans epLe_total r.1

/-- C2 witness: the flat list of a concrete parse is pairwise `epLe`-sorted. -/
theorem episodes_flat_sorted_witness :
    ([⟨1, "Эп", "https://jut.su/anime/x/episode-1.html", none⟩,
      ⟨1, "Эп", "https://jut.su/anime/x/episode-1.html", none⟩] :
        List Episode).Pairwise (fun a b => epLe a b = true) :=
  episodes_flat_sorted
    ⟨[.link ⟨"/anime/x/episode-1.html", none, "Эп"⟩,
      .link ⟨"/anime/x/episode-1.html", none, "Эп"⟩], true⟩
    [⟨1, "Эп", "https://jut.su/anime/x/episode-1.html", none⟩,
     ⟨1, "Эп", "https://jut.su/anime/x/episode-1.html", none⟩]
    [] rfl

/-! ## C1: season / arc containment invariants -/

theorem arcsJoin_cons (p : String × Arc) (rest : List (String × Arc)) :
    arcsJoin (p :: rest) = p.2.episodes ++ arcsJoin rest := rfl

theorem arcsJoin_append (l₁ l₂ : List (String × Arc)) :
    arcsJoin (l₁ ++ l₂) = arcsJoin l₁ ++ arcsJoin l₂ := by
  unfold arcsJoin
  rw [List.map_append, List.flatten_append]

theorem count_single_ite (x e : Episode) :
    List.count x [e] = if x = e then 1 else 0 := by
  by_cases hxe : x = e
  · subst hxe
    simp
  · rw [List.count_singleton, if_neg, if_neg hxe]
    intro hbe
    exact hxe (beq_iff_eq.mp hbe).symm

theorem mem_alInsert_val {κ β : Type} [DecidableEq κ] {d : List (κ × β)} {k : κ} {v : β}
    {p : κ × β} (h : p ∈ alInsert d k v) : p ∈ d ∨ p.2 = v := by
  induction d with
  | nil =>
    unfold alInsert at h
    rcases List.mem_singleton.mp h with rfl
    right
    rfl
  | cons q rest ih =>
    unfold alInsert at h
    split at h
    · rcases List.mem_cons.mp h with rfl | hm
      · right
        rfl
      · left
        exact List.mem_cons_of_mem _ hm
    · rcases List.mem_cons.mp h with rfl | hm
      · left
        exact List.mem_cons_self _ _
      · rcases ih hm with h1 | h2
        · left
          exact List.mem_cons_of_mem _ h1
        · right
          exact h2

theorem mem_sdUpdate {sd : SDict} {k : Nat} {f : SeasonData → SeasonData}
    {q : Nat × SeasonData} (h : q ∈ sdUpdate sd k f) :
    ∃ p, p ∈ sd ∧ ((p.1 = k ∧ q = (p.1, f p.2)) ∨ (p.1 ≠ k ∧ q = p)) := by
  unfold sdUpdate at h
  rcases List.mem_map.mp h with ⟨p, hp, hq⟩
  refine ⟨p, hp, ?_⟩
  by_cases hk : p.1 = k
  · left
    exact ⟨hk, by rw [← hq, if_pos hk]⟩
  · right
    exact ⟨hk, by rw [← hq, if_neg hk]⟩

theorem mem_of_alLookup {κ β : Type} [DecidableEq κ] {d : List (κ × β)} {k : κ} {v : β}
    (h : alLookup d k = some v) : (k, v) ∈ d := by
  induction d with
  | nil => cases h
  | cons p rest ih =>
    unfold alLookup at h
    split at h
    · rename_i hk
      injection h with hv
      have hpv : (k, v) = p := by
        rw [← hk, ← hv]
      rw [hpv]
      exact List.mem_cons_self _ _
    · exact List.mem_cons_of_mem _ (ih h)

theorem build_seasons_info_empty (season_headers : List (Nat × Header)) :
    ∀ p ∈ (build_seasons_info season_headers).1, p.2 = (⟨[], []⟩ : SeasonData) := by
  unfold build_seasons_info
  have hgen : ∀ (l : List (Nat × Header)) (st : SDict × List (Nat × SeasonInfo)),
      (∀ p ∈ st.1, p.2 = (⟨[], []⟩ : SeasonData)) →
      ∀ p ∈ (l.foldl
          (fun st p =>
            match extract_season_number p.2.text with
            | none => st
            | some season_num =>
              (alInsert st.1 season_num ⟨[], []⟩,
               alInsert st.2 season_num ⟨seasonTitleClean p.2.text p.2.titleAttr, p.2⟩)) st).1,
        p.2 = (⟨[], []⟩ : SeasonData) := by
    intro l
    induction l with
    | nil =>
      intro st hst
      exact hst
    | cons q rest ih =>
      intro st hst
      rw [List.foldl_cons]
      apply ih
      cases hq : extract_season_number q.2.text with
      | none =>
        simpa [hq] using hst
      | some sn =>
        simp only [hq]
        intro p hp
        rcases mem_alInsert_val hp with h1 | h2
        · exact hst p h1
        · exact h2
  exact hgen season_headers ([], []) (by intro p hp; cases hp)

theorem count_arcsJoin_appendToArc (arcs : List (String × Arc)) (name : String)
    (e x : Episode) :
    (arcsJoin (appendToArc arcs name e)).count x ≤
      (arcsJoin arcs).count x + (if x = e then 1 else 0) := by
  induction arcs with
  | nil =>
    simp [appendToArc]
  | cons p rest ih =>
    rcases p with ⟨n, a⟩
    unfold appendToArc
    split
    · rw [arcsJoin_cons, arcsJoin_cons]
      simp only [List.count_append]
      have hcnt := count_single_ite x e
      omega
    · rw [arcsJoin_cons, arcsJoin_cons]
      simp only [List.count_append]
      omega

theorem assign_arcs_shape (e : Episode) (i : Nat) (ainf : List ArcInfo) (sd : SDict)
    (sn : Nat) (doc : Doc) (sd2 : SDict)
    (h : assign_episode_to_arc e i ainf sd sn doc = some sd2) :
    sd2 = sd ∨ ∃ f : SeasonData → SeasonData, sd2 = sdUpdate sd sn f ∧
      ∀ s : SeasonData, (f s).episodes = s.episodes ∧
        ∀ x : Episode, (arcsJoin (f s).arcs).count x ≤
          (arcsJoin s.arcs).count x + (if x = e then 1 else 0) := by
  unfold assign_episode_to_arc at h
  dsimp only at h
  split at h
  · injection h with h2
    exact Or.inl h2.symm
  cases hfc : findCurrentArc (ainf.filter fun ai => ai.season == sn)
      (prevSeasonHeaders doc i) with
  | none =>
    rw [hfc] at h
    injection h with h2
    exact Or.inl h2.symm
  | some ai =>
    rw [hfc] at h
    cases hlk : alLookup sd sn with
    | none =>
      rw [hlk] at h
      cases h
    | some s0 =>
      rw [hlk] at h
      dsimp only at h
      split at h
      · injection h with h2
        refine Or.inr ⟨_, h2.symm, ?_⟩
        intro s
        refine ⟨rfl, ?_⟩
        intro x
        exact count_arcsJoin_appendToArc s.arcs ai.name e x
      · cases hac : Arc.construct ai.name ai.title [] with
        | none =>
          rw [hac] at h
          cases h
        | some arc =>
          rw [hac] at h
          injection h with h2
          refine Or.inr ⟨_, h2.symm, ?_⟩
          intro s
          refine ⟨rfl, ?_⟩
          intro x
          have harc : arc.episodes = [] := by
            unfold Arc.construct at hac
            split at hac
            · cases hac
            · injection hac with h3
              rw [← h3]
          dsimp only
          rw [arcsJoin_append]
          have hj : arcsJoin [(ai.name, { arc with episodes := arc.episodes ++ [e] })] =
              arc.episodes ++ [e] := by
            rw [arcsJoin_cons]
            show arc.episodes ++ [e] ++ arcsJoin [] = arc.episodes ++ [e]
            rw [show arcsJoin [] = [] from rfl, List.append_nil]
          rw [List.count_append, hj, harc, List.nil_append]
          have hcnt := count_single_ite x e
          omega

theorem processLink_inv (doc : Doc) (ainf : List ArcInfo) (st st' : List Episode × SDict)
    (il : Nat × Link) (h : processLink doc ainf st il = some st')
    (hinv : SDictInv st.2) : SDictInv st'.2 := by
  unfold processLink at h
  cases hpe : parse_episode_link il.2 (st.2.map Prod.fst) with
  | none =>
    rw [hpe] at h
    injection h with h2
    rw [← h2]
    exact hinv
  | some e =>
    rw [hpe] at h
    dsimp only at h
    cases hsn : e.season_number with
    | none =>
      rw [hsn] at h
      dsimp only at h
      injection h with h2
      rw [← h2]
      exact hinv
    | some sn =>
      rw [hsn] at h
      dsimp only at h
      by_cases hc : alContains st.2 sn = true
      · rw [if_pos hc] at h
        cases hassign : assign_episode_to_arc e il.1 ainf
            (sdUpdate st.2 sn fun s => { s with episodes := s.episodes ++ [e] }) sn doc with
        | none =>
          rw [hassign] at h
          cases h
        | some sd2 =>
          rw [hassign] at h
          injection h with h2
          rw [← h2]
          show SDictInv sd2
          have hstrong : ∀ q ∈ sdUpdate st.2 sn
                (fun s => { s with episodes := s.episodes ++ [e] }),
              (∀ x ∈ q.2.episodes, x.season_number = some q.1) ∧
                ∀ x : Episode, (arcsJoin q.2.arcs).count x +
                    (if q.1 = sn then (if x = e then 1 else 0) else 0) ≤
                  q.2.episodes.count x := by
            intro q hq
            rcases mem_sdUpdate hq with ⟨p, hp, hcase⟩
            obtain ⟨hep, hcnt⟩ := hinv p hp
            rcases hcase with ⟨hpk, rfl⟩ | ⟨hpk, rfl⟩
            · constructor
              · intro x hx
                dsimp only at hx ⊢
                rcases List.mem_append.mp hx with hx1 | hx2
                · exact hep x hx1
                · rcases List.mem_singleton.mp hx2 with rfl
                  rw [hsn, hpk]
              · intro x
                dsimp only
                rw [List.count_append, if_pos hpk]
                have h1 := count_single_ite x e
                have h2 := hcnt x
                omega
            · refine ⟨hep, ?_⟩
              intro x
              rw [if_neg hpk]
              have h2 := hcnt x
              omega
          rcases assign_arcs_shape e il.1 ainf _ sn doc sd2 hassign with heq | ⟨f, heq, hf⟩
          · rw [heq]
            intro q hq
            obtain ⟨ha, hb⟩ := hstrong q hq
            refine ⟨ha, ?_⟩
            intro x
            have := hb x
            omega
          · rw [heq]
            intro q hq
            rcases mem_sdUpdate hq with ⟨p, hp, hcase⟩
            obtain ⟨ha, hb⟩ := hstrong p hp
            rcases hcase with ⟨hpk, rfl⟩ | ⟨hpk, rfl⟩
            · obtain ⟨hfeps, hfarcs⟩ := hf p.2
              constructor
              · intro x hx
                dsimp only at hx ⊢
                rw [hfeps] at hx
                exact ha x hx
              · intro x
                dsimp only
                rw [hfeps]
                have h1 := hfarcs x
                have h2 := hb x
                rw [if_pos hpk] at h2
                omega
            · refine ⟨ha, ?_⟩
              intro x
              have := hb x
              omega
      · rw [if_neg hc] at h
        injection h with h2
        rw [← h2]
        exact hinv

theorem linksFold_inner_inv (doc : Doc) (ainf : List ArcInfo) (links : List (Nat × Link)) :
    ∀ (st st' : List Episode × SDict),
      List.foldlM (processLink doc ainf) st links = some st' → SDictInv st.2 → SDictInv st'.2 := by
  induction links with
  | nil =>
    intro st st' h hinv
    rw [List.foldlM_nil] at h
    injection h with h2
    rw [← h2]
    exact hinv
  | cons il rest ih =>
    intro st st' h hinv
    rw [List.foldlM_cons] at h
    cases hstep : processLink doc ainf st il with
    | none =>
      rw [hstep] at h
      cases h
    | some st1 =>
      rw [hstep] at h
      exact ih st1 st' h (processLink_inv doc ainf st st1 il hstep hinv)

theorem count_flatten_map {α : Type} (f : α → List Episode) (l : List α) (x : Episode) :
    ((l.map f).flatten.count x) = (l.map fun a => (f a).count x).sum := by
  induction l with
  | nil => rfl
  | cons a t ih =>
    simp only [List.map_cons, List.flatten_cons, List.count_append, List.sum_cons, ih]

theorem count_le_count_flatten {x : Episode} {l : List Episode} {L : List (List Episode)}
    (hl : l ∈ L) : l.count x ≤ L.flatten.count x := by
  induction L with
  | nil => cases hl
  | cons l0 rest ih =>
    rw [List.flatten_cons, List.count_append]
    rcases List.mem_cons.mp hl with rfl | hmem
    · omega
    · have := ih hmem
      omega

theorem buildSeason_spec (sd : SDict) (info : List (Nat × SeasonInfo)) (k : Nat) (S : Season)
    (hinv : SDictInv sd) (h : buildSeason sd info k = some S) : SeasonOk S := by
  unfold buildSeason at h
  cases hlk : alLookup sd k with
  | none =>
    rw [hlk] at h
    cases h
  | some s =>
    rw [hlk] at h
    cases hli : alLookup info k with
    | none =>
      rw [hli] at h
      cases h
    | some si =>
      rw [hli] at h
      dsimp only at h
      unfold Season.construct at h
      split at h
      · cases h
      injection h with h2
      obtain ⟨hseok, hcount⟩ := hinv (k, s) (mem_of_alLookup hlk)
      have hepsmem : ∀ e, e ∈ S.episodes ↔ e ∈ s.episodes := by
        intro e
        rw [← h2]
        exact (pySort_perm _ s.episodes).mem_iff
      have hepscnt : ∀ x : Episode, S.episodes.count x = s.episodes.count x := by
        intro x
        rw [← h2]
        exact (pySort_perm _ s.episodes).count_eq x
      have hnum : S.number = k := by rw [← h2]
      have harcs : S.arcs = (s.arcs.map Prod.snd).map fun a =>
          { a with episodes := pySort (fun x y => x.number ≤ y.number) a.episodes } := by
        rw [← h2]
      have harccnt : ∀ x : Episode,
          (S.arcs.map Arc.episodes).flatten.count x ≤ S.episodes.count x := by
        intro x
        rw [hepscnt x, harcs]
        have hmm : ((((s.arcs.map Prod.snd).map fun a =>
            { a with episodes := pySort (fun x y => x.number ≤ y.number) a.episodes }).map
              Arc.episodes)) =
            s.arcs.map fun p => pySort (fun x y => x.number ≤ y.number) p.2.episodes := by
          rw [List.map_map, List.map_map]
          rfl
        rw [hmm, count_flatten_map]
        have hsum : (s.arcs.map fun p =>
            ((pySort (fun x y => x.number ≤ y.number) p.2.episodes).count x)).sum =
            (s.arcs.map fun p => (p.2.episodes.count x)).sum := by
          congr 1
          apply List.map_congr_left
          intro p _
          exact (pySort_perm _ p.2.episodes).count_eq x
        rw [hsum]
        have hc := hcount x
        rw [show arcsJoin s.arcs = (s.arcs.map fun p => p.2.episodes).flatten from rfl,
          count_flatten_map] at hc
        exact hc
      refine ⟨?_, ?_, harccnt⟩
      · intro e he
        rw [hnum]
        exact hseok e ((hepsmem e).mp he)
      · intro A hA e he
        have h1 : A.episodes ∈ S.arcs.map Arc.episodes := List.mem_map_of_mem _ hA
        have h2 : 0 < A.episodes.count e := List.count_pos_iff.mpr he
        have h3 : 0 < (S.arcs.map Arc.episodes).flatten.count e :=
          Nat.lt_of_lt_of_le h2 (count_le_count_flatten h1)
        have h4 : 0 < S.episodes.count e := Nat.lt_of_lt_of_le h3 (harccnt e)
        exact List.count_pos_iff.mp h4

theorem seasonsFold_inner_spec (sd : SDict) (info : List (Nat × SeasonInfo))
    (hinv : SDictInv sd) (keys : List Nat) :
    ∀ (acc seasons : List Season),
      List.foldlM (fun acc k => (buildSeason sd info k).map fun s => acc ++ [s]) acc keys =
        some seasons →
      (∀ S ∈ acc, SeasonOk S) → ∀ S ∈ seasons, SeasonOk S := by
  induction keys with
  | nil =>
    intro acc seasons h hacc
    rw [List.foldlM_nil] at h
    injection h with h2
    rw [← h2]
    exact hacc
  | cons k rest ih =>
    intro acc seasons h hacc
    rw [List.foldlM_cons] at h
    cases hb : buildSeason sd info k with
    | none =>
      rw [hb] at h
      cases h
    | some s =>
      rw [hb] at h
      refine ih (acc ++ [s]) seasons h ?_
      intro S hS
      rcases List.mem_append.mp hS with h1 | h2
      · exact hacc S h1
      · rcases List.mem_singleton.mp h2 with rfl
        exact buildSeason_spec sd info k S hinv hb

theorem parse_with_seasons_spec (doc : Doc) (sh ac : List (Nat × Header))
    (eps : List Episode) (seasons : List Season)
    (h : parse_with_seasons doc sh ac = some (eps, seasons)) :
    ∀ S ∈ seasons, SeasonOk S := by
  unfold parse_with_seasons at h
  cases hlf : linksFold doc sh ac with
  | none =>
    rw [hlf] at h
    cases h
  | some st =>
    rw [hlf] at h
    dsimp only at h
    cases hsf : seasonsFold st.2 (build_seasons_info sh).2 with
    | none =>
      rw [hsf] at h
      cases h
    | some sl =>
      rw [hsf] at h
      injection h with h2
      have hseasons : seasons = sl := (congrArg Prod.snd h2).symm
      rw [hseasons]
      have hinit : SDictInv (build_seasons_info sh).1 := by
        intro p hp
        rw [build_seasons_info_empty sh p hp]
        constructor
        · intro e he
          cases he
        · intro e
          exact Nat.le_refl _
      unfold linksFold at hlf
      have hinv : SDictInv st.2 :=
        linksFold_inner_inv doc _ (episodeLinkNodes doc) _ st hlf hinit
      unfold seasonsFold at hsf
      exact seasonsFold_inner_spec st.2 _ hinv _ [] sl hsf (by intro S hS; cases hS)

/-- C1 amended: in every successful parse, every episode of a season `S`
carries `season_number = S.number`; every arc episode also occurs in the
season's episode list; and the arcs of a season collectively hold each
episode value at most as often as the season's episode list does — hence an
episode appears in at most one arc whenever the season's episode list is
duplicate-free.  (A page that repeats an episode link around two different
arc headers places the same episode value in two arcs, so the unconditional
"at most one arc" of the claim fails; see the counterexample.) -/
theorem season_arc_invariants (page : AnimePage) (eps : List Episode)
    (seasons : List Season) (h : parse_episodes_and_seasons page = some (eps, seasons)) :
    ∀ S ∈ seasons,
      (∀ e ∈ S.episodes, e.season_number = some S.number) ∧
        (∀ A ∈ S.arcs, ∀ e ∈ A.episodes, e ∈ S.episodes) ∧
        ∀ e : Episode, (S.arcs.map Arc.episodes).flatten.count e ≤ S.episodes.count e := by
  unfold parse_episodes_and_seasons at h
  cases hstep : parse_stage1 page with
  | none =>
    rw [hstep] at h
    cases h
  | some r =>
    rw [hstep] at h
    dsimp only at h
    injection h with h2
    have hseasons : seasons =
        if r.2.isEmpty then r.2 else pySort (fun a b => a.number ≤ b.number) r.2 :=
      (congrArg Prod.snd h2).symm
    have hmemr : ∀ S ∈ seasons, S ∈ r.2 := by
      intro S hS
      rw [hseasons] at hS
      by_cases hre : r.2.isEmpty = true
      · rw [if_pos hre] at hS
        exact hS
      · rw [if_neg hre] at hS
        exact (pySort_perm _ r.2).mem_iff.mp hS
    unfold parse_stage1 at hstep
    dsimp only at hstep
    split at hstep
    · intro S hS
      exact parse_with_seasons_spec page.doc _ _ r.1 r.2 hstep S (hmemr S hS)
    · intro S hS
      injection hstep with h3
      have hr2 : r.2 = [] := (congrArg Prod.snd h3).symm
      have : S ∈ ([] : List Season) := hr2 ▸ hmemr S hS
      cases this

/-- C1 witness: on the concrete one-season page, the parsed season's
episodes carry its number. -/
theorem season_arc_invariants_witness :
    exEpisode.season_number = some exSeason.number :=
  (season_arc_invariants exPage [exEpisode, exEpisode] [exSeason] rfl exSeason
      (List.mem_singleton.mpr rfl)).1 exEpisode (by decide)

/-- C1 counterexample: on a page that repeats one episode link after two
different arc headers of the same season, the parsed season holds the same
episode value in both arcs — an episode can appear in two arcs, contradicting
the claimed "at most one arc per season". -/
theorem episode_in_two_arcs_cex :
    parse_episodes_and_seasons exPage = some ([exEpisode, exEpisode], [exSeason]) ∧
      exArcA ∈ exSeason.arcs ∧ exArcB ∈ exSeason.arcs ∧ exArcA ≠ exArcB ∧
      exEpisode ∈ exArcA.episodes ∧ exEpisode ∈ exArcB.episodes :=
  ⟨rfl, by decide, by decide, by decide, by decide, by decide⟩

end Jutsu
